import Mathlib

/-!
Verification development for the pubmed text-extraction repository.

Part 1 embeds src/unicode2ascii.py (the ASCII transducer).
Part 2 embeds src/extractTIABs.py (citation extraction and formatting).
Strings are modelled by Lean strings / lists of characters; machine I/O
(streams, logging) is modelled by explicit values: the transducer output
is returned as a list of characters, and the logging calls of the source
are either dropped (pure diagnostics) or returned as lists of warning
strings where a claim refers to them.
-/

namespace Pubmed

/-! ### Embedding of src/unicode2ascii.py -/

/-- The boundary marker character: backspace, written '\b' in the source
mapping table (see read_mapping and map_character in unicode2ascii.py). -/
def bchar : Char := Char.ofNat 8

/-- Truthiness-plus-match test used in map_character: Python
prev and word_char.match(prev) with prev possibly None, for a given
word-character classifier.  The source compiles word_char as the
regular expression of a single \w character with re.U (line 84); the
regex is Unicode-aware, and which characters it matches is decided by
the regex engine's Unicode tables — data external to the source — so
the transducer functions below take the classifier as a parameter,
just as the heading expansion takes the vocabulary registry. -/
def word_opt (word_char : Char → Bool) : Option Char → Bool
  | some c => word_char c
  | none => false

/-- Embedding of unicode2ascii.map_character (lines 87-103): resolves
leading and trailing boundary markers of a replacement string against
the characters adjacent to the original input character, deciding word
characters with the given classifier. -/
def map_character (word_char : Char → Bool) (prev next_ : Option Char)
    (mapping : List Char) : List Char :=
  if mapping = [] then mapping
  else
    let m1 :=
      if mapping.head? = some bchar then
        (if word_opt word_char prev then [' '] else []) ++ mapping.drop 1
      else mapping
    if m1 ≠ [] ∧ m1.getLast? = some bchar then
      m1.dropLast ++ (if word_opt word_char next_ then [' '] else [])
    else m1

/-- Embedding of unicode2ascii.pairwise: s -> (s0,s1), (s1,s2), ... (sN, None). -/
def pairwise : List Char → List (Char × Option Char)
  | [] => []
  | [c] => [(c, none)]
  | c :: d :: rest => (c, some d) :: pairwise (d :: rest)

/-- Embedding of the escape in unicode2ascii.process line 127:
"<%.4X>" applied to the character ordinal (upper-case hex, zero-padded
to at least four digits). -/
def escape (c : Char) : List Char :=
  let d := (Nat.toDigits 16 c.toNat).map Char.toUpper
  '<' :: (List.replicate (4 - d.length) '0' ++ d) ++ ['>']

/-- The module-level tallies map_count and missing_mapping of
unicode2ascii.py, modelled as insertion-ordered association lists
(Python dict preserves insertion order). -/
structure TransducerState where
  map_count : List (Char × Nat)
  missing_mapping : List (Char × Nat)

/-- The initial (empty) module state of unicode2ascii.py. -/
def initState : TransducerState := ⟨[], []⟩

/-- Embedding of the dict update d[c] = d.get(c,0)+1 on an
insertion-ordered association list. -/
def tally_add (m : List (Char × Nat)) (c : Char) : List (Char × Nat) :=
  if m.any (fun p => p.1 = c) then
    m.map (fun p => if p.1 = c then (p.1, p.2 + 1) else p)
  else m ++ [(c, 1)]

/-- Count recorded for a character in a tally (0 when absent). -/
def tally_count (m : List (Char × Nat)) (c : Char) : Nat :=
  (m.lookup c).getD 0

/-- One line of unicode2ascii.process (lines 115-130): walks the
(char, next) pairs with the running prev character, maps characters
at or above codepoint 128 through the table, and returns the written
output, the missing-character count and the updated tallies. -/
def process_line (word_char : Char → Bool) (M : Char → Option (List Char)) :
    Option Char → List (Char × Option Char) → TransducerState →
    List Char × Nat × TransducerState
  | _, [], st => ([], 0, st)
  | prev, (c, next_) :: rest, st =>
    let step : List Char × Nat × TransducerState :=
      if 128 ≤ c.toNat then
        match M c with
        | some m =>
          (map_character word_char prev next_ m, 0,
           { st with map_count := tally_add st.map_count c })
        | none =>
          (escape c, 1,
           { st with missing_mapping := tally_add st.missing_mapping c })
      else ([c], 0, st)
    let rec_ := process_line word_char M (some c) rest step.2.2
    (step.1 ++ rec_.1, step.2.1 + rec_.2.1, rec_.2.2)

/-- Embedding of unicode2ascii.process (lines 106-131): the input
stream is a list of lines; prev is reset at each line start; output,
the returned missing count and the tallies accumulate across lines. -/
def process (word_char : Char → Bool) (M : Char → Option (List Char)) :
    List (List Char) → TransducerState → List Char × Nat × TransducerState
  | [], st => ([], 0, st)
  | line :: ls, st =>
    let r1 := process_line word_char M none (pairwise line) st
    let r2 := process word_char M ls r1.2.2
    (r1.1 ++ r2.1, r1.2.1 + r2.2.1, r2.2.2)

/-- Stable insertion of a character into a list ordered by the Boolean
relation le (model of one step of a stable sort). -/
def ord_insert (le : Char → Char → Bool) (x : Char) : List Char → List Char
  | [] => [x]
  | y :: ys => if le x y then x :: y :: ys else y :: ord_insert le x ys

/-- Stable insertion sort by the Boolean relation le; models the
semantics of Python sorted / list.sort, which are stable sorts. -/
def ins_sort (le : Char → Char → Bool) : List Char → List Char
  | [] => []
  | x :: xs => ord_insert le x (ins_sort le xs)

/-- Order in which unicode2ascii.print_summary (line 152) lists the
unmapped characters: sorted(missing_mapping.keys(), key count), i.e.
ascending by accumulated count. -/
def missing_summary_order (m : List (Char × Nat)) : List Char :=
  ins_sort (fun a b => tally_count m a ≤ tally_count m b) (m.map Prod.fst)

/-- Order in which extractTIABs.write_to_ascii_statistics (line 550)
lists the unmapped characters: sk.sort with comparator cmp of the
counts reversed, i.e. descending by accumulated count. -/
def write_to_ascii_order (m : List (Char × Nat)) : List Char :=
  ins_sort (fun a b => tally_count m b ≤ tally_count m a) (m.map Prod.fst)

/-! ### Embedding of src/extractTIABs.py -/

mutual
/-- An ElementTree XML element: tag, attribute dictionary, text before
the first child, tail text after the closing tag, and child elements.
The child list is a mutually defined list type so that the recursive
traversals below are structural (and hence reduce in the kernel). -/
inductive Element where
  | mk (tag : String) (attrib : List (String × String))
       (text tail : Option String) (children : ElementList)
inductive ElementList where
  | nil
  | cons (head : Element) (tl : ElementList)
end

/-- The tag of an element. -/
def Element.tag : Element → String
  | .mk t _ _ _ _ => t

/-- The attribute dictionary of an element. -/
def Element.attrib : Element → List (String × String)
  | .mk _ a _ _ _ => a

/-- The text of an element (None modelled as none). -/
def Element.text : Element → Option String
  | .mk _ _ tx _ _ => tx

/-- The tail text of an element. -/
def Element.tail : Element → Option String
  | .mk _ _ _ tl _ => tl

/-- Conversion of a child list to an ordinary list. -/
def ElementList.toList : ElementList → List Element
  | .nil => []
  | .cons c cs => c :: cs.toList

/-- Conversion of an ordinary list to a child list (used to write
concrete elements). -/
def elist : List Element → ElementList
  | [] => .nil
  | c :: cs => .cons c (elist cs)

/-- The children of an element as an ordinary list. -/
def Element.children : Element → List Element
  | .mk _ _ _ _ ch => ch.toList

mutual
/-- Embedding of inner_text (lines 95-97): the catenated text of an
element and all its subelements, following ElementTree itertext (text
of the element, then recursively each child followed by its tail). -/
def inner_text : Element → String
  | .mk _ _ text _ children => text.getD "" ++ inner_text_list children
/-- Catenated itertext plus tail over a child list. -/
def inner_text_list : ElementList → String
  | .nil => ""
  | .cons c cs => inner_text c ++ c.tail.getD "" ++ inner_text_list cs
end

mutual
/-- Descendants of an element (itself excluded) carrying a given tag,
in document (pre-) order; models ElementTree findall with a .// path. -/
def desc_tag_el (t : String) : Element → List Element
  | .mk _ _ _ _ ch => desc_tag_list t ch
/-- Matching elements of a child list together with their matching
descendants, in document order. -/
def desc_tag_list (t : String) : ElementList → List Element
  | .nil => []
  | .cons c cs =>
      (if c.tag == t then [c] else []) ++ desc_tag_el t c ++ desc_tag_list t cs
end

/-- All descendants of an element (itself excluded) carrying a tag. -/
def desc_with_tag (e : Element) (t : String) : List Element :=
  desc_tag_el t e

/-- Direct children of an element carrying a tag; models
ElementTree findall with a plain tag. -/
def Element.findall (e : Element) (t : String) : List Element :=
  e.children.filter (fun c => c.tag == t)

/-- Attribute lookup, models element.attrib.get(name). -/
def Element.get_attr (e : Element) (name : String) : Option String :=
  e.attrib.lookup name

/-- Error taxonomy of extractTIABs.py: KeyError and FormatError raised
by find_only, and assertion failures (the MalformedRecord condition of
the specification). -/
inductive ExtractError where
  | keyError : String → ExtractError
  | formatError : String → ExtractError
  | malformedRecord : String → ExtractError
deriving DecidableEq, Repr

/-- Embedding of find_only (lines 346-357): the only matching child,
KeyError if none, FormatError if several. -/
def find_only (e : Element) (t : String) : Except ExtractError Element :=
  match e.findall t with
  | [] => .error (.keyError ("Error: expected 1 " ++ t ++ ", got 0"))
  | [x] => .ok x
  | found =>
      .error (.formatError
        ("Error: expected 1 " ++ t ++ ", got " ++ toString found.length))

/-- The find_only logic applied to a recursive .// search, used by
find_metadata for the PubDate element. -/
def find_only_desc (e : Element) (t : String) : Except ExtractError Element :=
  match desc_with_tag e t with
  | [] => .error (.keyError ("Error: expected 1 .//" ++ t ++ ", got 0"))
  | [x] => .ok x
  | found =>
      .error (.formatError
        ("Error: expected 1 .//" ++ t ++ ", got " ++ toString found.length))

/-- Output options of extractTIABs.py (argparser, lines 47-93),
restricted to the fields the formatting and extraction code reads. -/
structure Options where
  single_line_abstract : Bool
  include_id : Bool
  no_title : Bool
  no_abstract : Bool
  no_colon : Bool
  tokenize : Bool
  mesh_headings : Bool
  mesh_trees : Bool
  substances : Bool
  metadata : Bool
deriving DecidableEq, Repr

/-- Python truth test options and options.f where options may be None. -/
def opt_get (options : Option Options) (f : Options → Bool) : Bool :=
  match options with
  | none => false
  | some o => f o

/-- Embedding of AbstractSection (lines 190-242): a section of an
abstract with text and an optional label (empty string when absent). -/
structure AbstractSection where
  _text : String
  label : String
deriving DecidableEq, Repr

/-- Embedding of Python str.strip(): remove leading and trailing
whitespace (the source only meets ASCII whitespace here). -/
def py_strip (s : String) : String :=
  String.mk (((s.data.dropWhile Char.isWhitespace).reverse.dropWhile
    Char.isWhitespace).reverse)

/-- Embedding of Python str.isspace(): nonempty and all whitespace. -/
def py_isspace (s : String) : Bool :=
  !s.data.isEmpty && s.data.all Char.isWhitespace

/-- Embedding of Python str.isdigit(): nonempty and all digits. -/
def py_isdigit (s : String) : Bool :=
  !s.data.isEmpty && s.data.all Char.isDigit

/-- Embedding of AbstractSection._colon (lines 197-203). -/
def AbstractSection._colon (_s : AbstractSection) (options : Option Options) : String :=
  if opt_get options Options.no_colon then ""
  else if opt_get options Options.tokenize then " :"
  else ":"

/-- Embedding of AbstractSection._separator (lines 205-215). -/
def AbstractSection._separator (s : AbstractSection) (options : Option Options) : String :=
  if s.label == "" then ""
  else
    let colon := s._colon options
    let space :=
      if s._text == "" || py_isspace s._text then ""
      else if !(opt_get options Options.single_line_abstract) then "\n"
      else " "
    colon ++ space

/-- Embedding of AbstractSection.text (lines 217-218). -/
def AbstractSection.text (s : AbstractSection) (options : Option Options) : String :=
  s.label ++ s._separator options ++ s._text

/-- Text normalization of AbstractSection.from_xml (lines 230-233):
text that is empty or whitespace-only becomes the empty string (the
accompanying warn call is a log line and is not modelled). -/
def normalize_text (text0 : String) : String :=
  if text0 ≠ "" ∧ py_strip text0 ≠ "" then text0 else ""

/-- Label normalization of AbstractSection.from_xml (lines 234-237):
the special label UNLABELLED is interpreted as empty. -/
def normalize_label (label : Option String) : Option String :=
  if label == some "UNLABELLED" then some "" else label

/-- Embedding of AbstractSection.from_xml (lines 228-242).  The
EmptySection exception is modelled by the error side, carrying the
exception message. -/
def AbstractSection.from_xml (element : Element) (PMID : String) :
    Except String AbstractSection :=
  if normalize_text (inner_text element) == ""
      && ((normalize_label (element.get_attr "Label")).getD "") == "" then
    .error ("empty unlabelled <AbstractText> in " ++ PMID)
  else
    .ok ⟨normalize_text (inner_text element),
         (normalize_label (element.get_attr "Label")).getD ""⟩

/-- Embedding of the Descriptor namedtuple (line 244). -/
structure Descriptor where
  id : String
  name : String
  major : Bool
deriving DecidableEq, Repr

/-- Embedding of the Qualifier namedtuple (line 245). -/
structure Qualifier where
  id : String
  name : String
  major : Bool
deriving DecidableEq, Repr

/-- Embedding of MeshHeading (lines 247-317): a Descriptor and its
Qualifiers. -/
structure MeshHeading where
  descriptor : Descriptor
  qualifiers : List Qualifier
deriving DecidableEq, Repr

/-- Embedding of MeshHeading.descriptor_qualifier_pairs (lines 254-256). -/
def MeshHeading.descriptor_qualifier_pairs (h : MeshHeading) :
    List (Descriptor × Option Qualifier) :=
  let quals := if h.qualifiers = [] then [none] else h.qualifiers.map some
  quals.map (fun q => (h.descriptor, q))

/-- Embedding of MeshHeading.heading_texts (lines 258-269). -/
def MeshHeading.heading_texts (h : MeshHeading) : List String :=
  h.descriptor_qualifier_pairs.map (fun dq =>
    let d := dq.1
    let did := d.id ++ (if d.major then "*" else "")
    let dname := d.name ++ (if d.major then "*" else "")
    match dq.2 with
    | none => did ++ " (" ++ dname ++ ")"
    | some q =>
      let qid := q.id ++ (if q.major then "*" else "")
      let qname := q.name ++ (if q.major then "*" else "")
      did ++ "/" ++ qid ++ " (" ++ dname ++ "/" ++ qname ++ ")")

/-- Embedding of mesh_ancestors (lines 493-500).  split_dot models
Python str.split with separator dot on the character list of the code;
the head of the result list models treenum[0] (for the empty string the
source raises IndexError, which no claim exercises). -/
def split_dot : List Char → List (List Char)
  | [] => [[]]
  | c :: cs =>
    match split_dot cs with
    | [] => [[]]
    | p :: ps => if c = '.' then [] :: p :: ps else (c :: p) :: ps

/-- Ancestor tree numbers for a given MeSH tree number: the single
first character, then every dot-joined prefix of the dot-separated
segments (mesh_ancestors, lines 493-500). -/
def mesh_ancestors (treenum : String) : List String :=
  let parts := split_dot treenum.data
  [String.mk (treenum.data.take 1)] ++
    (List.range parts.length).map
      (fun i => String.intercalate "." ((parts.take (i + 1)).map String.mk))

/-- Insertion into the OrderedDict of MeshHeading.tree_numbers
(line 278): a key already present keeps its first position and
contributes nothing new; a new key is appended. -/
def keyInsert {α : Type} [DecidableEq α] (l : List α) (k : α) : List α :=
  if k ∈ l then l else l ++ [k]

/-- Folding keyInsert over a list of keys. -/
def insertAll {α : Type} [DecidableEq α] (acc : List α) (l : List α) : List α :=
  l.foldl keyInsert acc

/-- The first-occurrence subsequence of a list: each element once, in
the order of its first occurrence. -/
def firstOccur {α : Type} [DecidableEq α] : List α → List α
  | [] => []
  | x :: xs => x :: firstOccur (xs.filter (fun y => decide (y ≠ x)))
termination_by l => l.length
decreasing_by
  exact Nat.lt_succ_of_le (List.length_filter_le _ _)

/-- The key sequence built by the nested loops of
MeshHeading.tree_numbers (lines 271-279): for every
(descriptor, qualifier) pair, for every tree number of the descriptor
(looked up in the registry function u2t), for every ancestor of that
tree number, insert the (ancestor, qualifier) key into the ordered
dictionary.  The registry is passed as a function, modelling the
uid_to_node table of get_mesh_data. -/
def MeshHeading.tree_number_keys (u2t : String → List String)
    (h : MeshHeading) : List (String × Option Qualifier) :=
  h.descriptor_qualifier_pairs.foldl
    (fun acc dq =>
      (u2t dq.1.id).foldl
        (fun acc2 tn =>
          (mesh_ancestors tn).foldl (fun acc3 t => keyInsert acc3 (t, dq.2)) acc2)
        acc)
    []

/-- Embedding of tree_number_text (lines 472-479); the tree-number to
name table is passed as a function. -/
def tree_number_text (treenum : String) (qualifier : Option Qualifier)
    (tname : String → String) : String :=
  match qualifier with
  | none => treenum ++ " (" ++ tname treenum ++ ")"
  | some q =>
      treenum ++ "/" ++ q.id ++ " (" ++ tname treenum ++ "/" ++ q.name ++ ")"

/-- Embedding of MeshHeading.tree_numbers (lines 271-279): the ordered
de-duplicated keys, rendered. -/
def MeshHeading.tree_numbers (u2t : String → List String)
    (tname : String → String) (h : MeshHeading) : List String :=
  (h.tree_number_keys u2t).map (fun k => tree_number_text k.1 k.2 tname)

/-- Embedding of MeshHeading.text (lines 281-285). -/
def MeshHeading.text (u2t : String → List String) (tname : String → String)
    (h : MeshHeading) (options : Option Options) : String :=
  if !(opt_get options Options.mesh_trees) then
    String.intercalate "\t" h.heading_texts
  else
    String.intercalate "\t" (h.tree_numbers u2t tname)

/-- Embedding of MeshHeading.from_xml (lines 306-317).  Missing UI
attributes and missing element text are modelled as empty strings (the
source would store None). -/
def MeshHeading.from_xml (element : Element) : Except ExtractError MeshHeading :=
  match find_only element "DescriptorName" with
  | .error e => .error e
  | .ok desc =>
    let descriptor : Descriptor :=
      ⟨(desc.get_attr "UI").getD "", desc.text.getD "",
       desc.get_attr "MajorTopicYN" == some "Y"⟩
    let qualifiers := (element.findall "QualifierName").map (fun qual =>
      (⟨(qual.get_attr "UI").getD "", qual.text.getD "",
        qual.get_attr "MajorTopicYN" == some "Y"⟩ : Qualifier))
    .ok ⟨descriptor, qualifiers⟩

/-- Embedding of Chemical (lines 319-344). -/
structure Chemical where
  id : String
  name : String
  regnum : String
deriving DecidableEq, Repr

/-- Embedding of Chemical.text (lines 327-329): the registry number is
not represented. -/
def Chemical.text (c : Chemical) (_options : Option Options) : String :=
  c.id ++ " (" ++ c.name ++ ")"

/-- Embedding of Chemical.from_xml (lines 338-344). -/
def Chemical.from_xml (element : Element) : Except ExtractError Chemical :=
  match find_only element "NameOfSubstance" with
  | .error e => .error e
  | .ok id_name =>
    match find_only element "RegistryNumber" with
    | .error e => .error e
    | .ok reg =>
      .ok ⟨(id_name.get_attr "UI").getD "", id_name.text.getD "",
           reg.text.getD ""⟩

/-- Embedding of find_abstract (lines 359-379): the single Abstract
under Article, else the first OtherAbstract of the citation, else
none; two or more Abstract elements fail the assertion on line 364
(a MalformedRecord).  The warning for several OtherAbstract elements
is a log line and is not modelled. -/
def find_abstract (citation : Element) (PMID : String) :
    Except ExtractError (Option Element) :=
  match find_only citation "Article" with
  | .error e => .error e
  | .ok article =>
    let abstracts := article.findall "Abstract"
    if 2 ≤ abstracts.length then
      .error (.malformedRecord
        ("ERROR: abstracts for PMID " ++ PMID))
    else
      match abstracts with
      | [a] => .ok (some a)
      | _ =>
        match citation.findall "OtherAbstract" with
        | [] => .ok none
        | o :: _ => .ok (some o)

/-- Embedding of find_mesh_headings (lines 381-391) as called from
Citation.from_xml (options is None there, so the headings are always
loaded); two or more MeshHeadingList elements fail the assertion. -/
def find_mesh_headings (citation : Element) (PMID : String) :
    Except ExtractError (List Element) :=
  match citation.findall "MeshHeadingList" with
  | [] => .ok []
  | [h] => .ok (h.findall "MeshHeading")
  | _ => .error (.malformedRecord ("Multiple MeshHeadingLists for " ++ PMID))

/-- Embedding of find_chemicals (lines 393-403) as called from
Citation.from_xml. -/
def find_chemicals (citation : Element) (PMID : String) :
    Except ExtractError (List Element) :=
  match citation.findall "ChemicalList" with
  | [] => .ok []
  | [c] => .ok (c.findall "Chemical")
  | _ => .error (.malformedRecord ("Multiple ChemicalLists for " ++ PMID))

/-- The month abbreviation table of extractTIABs.py (lines 29-42). -/
def month_abbr_map : List (String × String) :=
  [("Jan", "01"), ("Feb", "02"), ("Mar", "03"), ("Apr", "04"),
   ("May", "05"), ("Jun", "06"), ("Jul", "07"), ("Aug", "08"),
   ("Sep", "09"), ("Oct", "10"), ("Nov", "11"), ("Dec", "12")]

/-- The values dictionary built by date_string (lines 407-412): tag to
text of the children, first occurrence winning (a duplicate tag is
warned about and ignored). -/
def date_values (element : Element) : List (String × Option String) :=
  element.children.foldl
    (fun vs e => if (vs.lookup e.tag).isSome then vs else vs ++ [(e.tag, e.text)])
    []

/-- Embedding of date_string (lines 405-443).  The warn calls are log
lines and are not modelled; expect_full_date only selects warnings and
does not change the value. -/
def date_string (element : Element) (_PMID : String)
    (_expect_full_date : Bool) : String :=
  let values := date_values element
  let date : Option String := (values.lookup "MedlineDate").getD none
  let year : Option String := (values.lookup "Year").getD none
  let month : Option String := (values.lookup "Month").getD none
  let day : Option String := (values.lookup "Day").getD none
  let month : Option String :=
    match month with
    | none => none
    | some m =>
      if py_isdigit m then some m
      else
        match month_abbr_map.lookup m with
        | some mm => some mm
        | none => some m
  match date with
  | some d => d
  | none =>
    match year with
    | none => ""
    | some y =>
      match month with
      | none => y
      | some m =>
        match day with
        | none => y ++ "-" ++ m
        | some d => y ++ "-" ++ m ++ "-" ++ d

/-- OrderedDict assignment on a string-keyed association list: an
existing key keeps its position and takes the new value, a new key is
appended. -/
def od_insert (m : List (String × String)) (k v : String) :
    List (String × String) :=
  if m.any (fun p => p.1 = k) then
    m.map (fun p => if p.1 = k then (k, v) else p)
  else m ++ [(k, v)]

/-- Embedding of find_metadata (lines 445-470) as called from
Citation.from_xml (options None, so metadata is always loaded).  For
DateCreated and DateCompleted a KeyError from find_only is skipped
(the try/except on lines 453-457) while a FormatError propagates;
PubDate is a recursive search and required; Electronic ArticleDate
elements set EPubDate. -/
def find_metadata (citation : Element) (PMID : String) :
    Except ExtractError (List (String × String)) :=
  let step := fun (md : List (String × String)) (t : String) =>
    match find_only citation t with
    | .ok e => Except.ok (od_insert md t (date_string e PMID true))
    | .error (ExtractError.keyError _) => Except.ok md
    | .error e => Except.error e
  match step [] "DateCreated" with
  | .error e => .error e
  | .ok md1 =>
    match step md1 "DateCompleted" with
    | .error e => .error e
    | .ok md2 =>
      match find_only citation "Article" with
      | .error e => .error e
      | .ok article =>
        match find_only_desc article "PubDate" with
        | .error e => .error e
        | .ok pubdate =>
          let md3 := od_insert md2 "PubDate" (date_string pubdate PMID false)
          let md4 := (article.findall "ArticleDate").foldl
            (fun md e =>
              if e.get_attr "DateType" == some "Electronic" then
                od_insert md "EPubDate" (date_string e PMID true)
              else md)
            md3
          .ok md4

/-- Embedding of the Citation record (lines 99-108). -/
structure Citation where
  PMID : String
  title : String
  sections : List AbstractSection
  mesh : List MeshHeading
  chemicals : List Chemical
  metadata : List (String × String)
deriving DecidableEq, Repr

/-- Embedding of Citation.abstract_text (lines 110-113). -/
def Citation.abstract_text (c : Citation) (options : Option Options) : String :=
  let space := if !(opt_get options Options.single_line_abstract) then "\n" else " "
  String.intercalate space (c.sections.map (fun s => s.text options))

/-- Last character is a newline; models str.endswith of a newline. -/
def ends_with_newline (s : String) : Bool :=
  s.data.getLast? == some '\n'

/-- Embedding of Citation.text (lines 115-135).  The MeSH registry
functions are passed in for the expanded-trees rendering (the source
reads them from the process-global get_mesh_data cache). -/
def Citation.text (u2t : String → List String) (tname : String → String)
    (c : Citation) (options : Option Options) : String :=
  let lines : List String :=
    (if opt_get options Options.include_id then [c.PMID] else []) ++
    (if !(opt_get options Options.no_title) then [c.title] else []) ++
    (if !(opt_get options Options.no_abstract) then [c.abstract_text options] else []) ++
    (if opt_get options Options.mesh_headings then
      [String.intercalate "\t"
        ("MeSH Terms:" :: c.mesh.map (fun m => m.text u2t tname options))]
     else []) ++
    (if opt_get options Options.substances then
      [String.intercalate "\t"
        ("Substances:" :: c.chemicals.map (fun ch => ch.text options))]
     else []) ++
    (if opt_get options Options.metadata then
      c.metadata.map (fun kv => kv.1 ++ "\t" ++ kv.2)
     else [])
  let text := String.intercalate "\n" lines
  if !(ends_with_newline text) then text ++ "\n" else text

/-- The fallback step of the title resolution (lines 159-164): when
the primary title is empty, use the VernacularTitle inner text; its
absence (a KeyError) is swallowed by the try/except while a
FormatError propagates. -/
def vernacular_fallback (article : Element) (t1 : String) :
    Except ExtractError String :=
  if t1 = "" then
    match find_only article "VernacularTitle" with
    | .ok v => .ok (inner_text v)
    | .error (ExtractError.keyError _) => .ok t1
    | .error e => .error e
  else .ok t1

/-- The title-resolution steps of Citation.from_xml (lines 156-167):
the ArticleTitle inner text; on empty, the vernacular fallback; a
title still empty is recorded as the empty string together with the
missing-title warning message. -/
def resolve_title (article : Element) (PMID : String) :
    Except ExtractError (String × List String) :=
  match find_only article "ArticleTitle" with
  | .error e => .error e
  | .ok titleEl =>
    match vernacular_fallback article (inner_text titleEl) with
    | .error e => .error e
    | .ok t2 =>
      if t2 = "" then .ok ("", ["missing title for " ++ PMID])
      else .ok (t2, [])

/-- The AbstractText blocks of a resolved abstract container: none
when the container is absent, its AbstractText children otherwise
(Citation.from_xml lines 169-172). -/
def abstract_texts_of : Option Element → List Element
  | none => []
  | some ab => ab.findall "AbstractText"

/-- The sections loop of Citation.from_xml (lines 174-179): one
AbstractSection per block, blocks raising EmptySection skipped. -/
def sections_of (ats : List Element) (PMID : String) : List AbstractSection :=
  ats.filterMap (fun a => (AbstractSection.from_xml a PMID).toOption)

/-- The warning messages of the EmptySection failures skipped by the
sections loop of Citation.from_xml (line 179). -/
def sec_warns_of (ats : List Element) (PMID : String) : List String :=
  ats.filterMap (fun a =>
    match AbstractSection.from_xml a PMID with
    | .error m => some m
    | .ok _ => none)

/-- The tail of Citation.from_xml after the sections have been built
(lines 180-185): MeSH headings, chemicals and metadata, then the
assembled Citation together with the accumulated warnings. -/
def from_xml_tail (element : Element) (PMID title : String)
    (titleWarns secWarns : List String) (sections : List AbstractSection) :
    Except ExtractError (Citation × List String) :=
  match find_mesh_headings element PMID with
  | .error e => .error e
  | .ok headingEls =>
    match headingEls.mapM MeshHeading.from_xml with
    | .error e => .error e
    | .ok mesh =>
      match find_chemicals element PMID with
      | .error e => .error e
      | .ok chemEls =>
        match chemEls.mapM Chemical.from_xml with
        | .error e => .error e
        | .ok chemicals =>
          match find_metadata element PMID with
          | .error e => .error e
          | .ok metadata =>
            .ok (⟨PMID, title, sections, mesh, chemicals, metadata⟩,
                 titleWarns ++ secWarns)

/-- The tail of Citation.from_xml after the title has been resolved
(lines 168-185): abstract resolution with the assertion that a present
abstract holds at least one AbstractText, then sections, headings,
chemicals and metadata. -/
def from_xml_rest (element : Element) (PMID title : String)
    (titleWarns : List String) :
    Except ExtractError (Citation × List String) :=
  match find_abstract element PMID with
  | .error e => .error e
  | .ok abstractOpt =>
    if abstractOpt.isSome && (abstract_texts_of abstractOpt).isEmpty then
      .error (.malformedRecord ("ERROR: no <AbstractText> for " ++ PMID))
    else
      from_xml_tail element PMID title titleWarns
        (sec_warns_of (abstract_texts_of abstractOpt) PMID)
        (sections_of (abstract_texts_of abstractOpt) PMID)

/-- Embedding of Citation.from_xml (lines 154-185).  The result pairs
the Citation with the warning messages surfaced while building it (the
missing-title warning and the skipped-empty-section warnings); errors
model the uncaught KeyError / FormatError / assertion failures of the
source.  A PMID element without text is modelled as the empty string. -/
def Citation.from_xml (element : Element) :
    Except ExtractError (Citation × List String) :=
  match find_only element "PMID" with
  | .error e => .error e
  | .ok pmidEl =>
    match find_only element "Article" with
    | .error e => .error e
    | .ok article =>
      match resolve_title article (pmidEl.text.getD "") with
      | .error e => .error e
      | .ok tw => from_xml_rest element (pmidEl.text.getD "") tw.1 tw.2

/-! ### Derived notions used to state the claims -/

/-- The flat sequence of (ancestor, qualifier) keys in the order in
which the nested loops of MeshHeading.tree_numbers insert them. -/
def key_stream (u2t : String → List String) (h : MeshHeading) :
    List (String × Option Qualifier) :=
  h.descriptor_qualifier_pairs.flatMap (fun dq =>
    (u2t dq.1.id).flatMap (fun tn =>
      (mesh_ancestors tn).map (fun t => (t, dq.2))))

/-! ### Concrete inputs used by witnesses and counterexamples -/

/-- A citation whose Abstract element is present but holds no
AbstractText children. -/
def elemAbstractNoTexts : Element :=
  .mk "MedlineCitation" [] none none (elist [
    .mk "PMID" [] (some "1") none (elist []),
    .mk "Article" [] none none (elist [
      .mk "ArticleTitle" [] (some "T") none (elist []),
      .mk "Abstract" [] none none (elist [])])])

/-- The Abstract child of elemAbstractNoTexts. -/
def abstractNoTexts : Element := .mk "Abstract" [] none none (elist [])

/-- A well-formed citation with no abstract container at all. -/
def elemNoAbstract : Element :=
  .mk "MedlineCitation" [] none none (elist [
    .mk "PMID" [] (some "2") none (elist []),
    .mk "Article" [] none none (elist [
      .mk "ArticleTitle" [] (some "T") none (elist []),
      .mk "PubDate" [] none none (elist [
        .mk "Year" [] (some "2000") none (elist [])])])])

/-- A citation whose Article has a VernacularTitle but no ArticleTitle
element. -/
def elemNoPrimaryTitle : Element :=
  .mk "MedlineCitation" [] none none (elist [
    .mk "PMID" [] (some "9") none (elist []),
    .mk "Article" [] none none (elist [
      .mk "VernacularTitle" [] (some "V") none (elist []),
      .mk "PubDate" [] none none (elist [
        .mk "Year" [] (some "2000") none (elist [])])])])

/-- A citation whose ArticleTitle is present but empty, with a
VernacularTitle fallback. -/
def elemEmptyPrimaryTitle : Element :=
  .mk "MedlineCitation" [] none none (elist [
    .mk "PMID" [] (some "9") none (elist []),
    .mk "Article" [] none none (elist [
      .mk "ArticleTitle" [] none none (elist []),
      .mk "VernacularTitle" [] (some "V") none (elist []),
      .mk "PubDate" [] none none (elist [
        .mk "Year" [] (some "2000") none (elist [])])])])

/-- The Article child of elemEmptyPrimaryTitle. -/
def articleEmptyPrimaryTitle : Element :=
  .mk "Article" [] none none (elist [
    .mk "ArticleTitle" [] none none (elist []),
    .mk "VernacularTitle" [] (some "V") none (elist []),
    .mk "PubDate" [] none none (elist [
      .mk "Year" [] (some "2000") none (elist [])])])

/-- An empty VernacularTitle element. -/
def vernacularEmpty : Element := .mk "VernacularTitle" [] none none (elist [])

/-- The PMID child of elemBothTitlesEmpty. -/
def pmid8 : Element := .mk "PMID" [] (some "8") none (elist [])

/-- A citation whose ArticleTitle and VernacularTitle are both present
but empty. -/
def elemBothTitlesEmpty : Element :=
  .mk "MedlineCitation" [] none none (elist [
    .mk "PMID" [] (some "8") none (elist []),
    .mk "Article" [] none none (elist [
      .mk "ArticleTitle" [] none none (elist []),
      .mk "VernacularTitle" [] none none (elist []),
      .mk "PubDate" [] none none (elist [
        .mk "Year" [] (some "2000") none (elist [])])])])

/-- The Article child of elemBothTitlesEmpty. -/
def articleBothTitlesEmpty : Element :=
  .mk "Article" [] none none (elist [
    .mk "ArticleTitle" [] none none (elist []),
    .mk "VernacularTitle" [] none none (elist []),
    .mk "PubDate" [] none none (elist [
      .mk "Year" [] (some "2000") none (elist [])])])

/-- The PMID child of elemNoVernacular. -/
def pmid5 : Element := .mk "PMID" [] (some "5") none (elist [])

/-- A citation whose ArticleTitle is present but empty and which has
no VernacularTitle element at all. -/
def elemNoVernacular : Element :=
  .mk "MedlineCitation" [] none none (elist [
    .mk "PMID" [] (some "5") none (elist []),
    .mk "Article" [] none none (elist [
      .mk "ArticleTitle" [] none none (elist []),
      .mk "PubDate" [] none none (elist [
        .mk "Year" [] (some "2000") none (elist [])])])])

/-- The Article child of elemNoVernacular. -/
def articleNoVernacular : Element :=
  .mk "Article" [] none none (elist [
    .mk "ArticleTitle" [] none none (elist []),
    .mk "PubDate" [] none none (elist [
      .mk "Year" [] (some "2000") none (elist [])])])

/-- The PMID child of elemAbstractNoTexts. -/
def pmid1 : Element := .mk "PMID" [] (some "1") none (elist [])

/-- The Article child of elemAbstractNoTexts. -/
def articleA : Element :=
  .mk "Article" [] none none (elist [
    .mk "ArticleTitle" [] (some "T") none (elist []),
    .mk "Abstract" [] none none (elist [])])

/-- The PMID child of elemNoAbstract. -/
def pmid2 : Element := .mk "PMID" [] (some "2") none (elist [])

/-- The PMID child of the title-fallback citations. -/
def pmid9 : Element := .mk "PMID" [] (some "9") none (elist [])

/-- An empty ArticleTitle element. -/
def titleEmpty : Element := .mk "ArticleTitle" [] none none (elist [])

/-- A VernacularTitle element with text V. -/
def vernacularV : Element := .mk "VernacularTitle" [] (some "V") none (elist [])

/-- The Article child of elemNoPrimaryTitle. -/
def articleNoPrimaryTitle : Element :=
  .mk "Article" [] none none (elist [
    .mk "VernacularTitle" [] (some "V") none (elist []),
    .mk "PubDate" [] none none (elist [
      .mk "Year" [] (some "2000") none (elist [])])])

/-- An AbstractText block with whitespace-only text and the literal
label UNLABELLED. -/
def elemUnlabelledBlank : Element :=
  .mk "AbstractText" [("Label", "UNLABELLED")] (some " ") none (elist [])

/-- An AbstractText block with nonempty text and the literal label
UNLABELLED. -/
def elemUnlabelledText : Element :=
  .mk "AbstractText" [("Label", "UNLABELLED")] (some "body") none (elist [])

/-- The character U+00E9, used as a concrete mapped character. -/
def chrE9 : Char := Char.ofNat 233

/-- The character U+00E0, used as a concrete unmapped non-ASCII word
character. -/
def chrE0 : Char := Char.ofNat 224

/-- A concrete word-character classifier used by witnesses: the ASCII
word characters (on which every implementation of the word regex
agrees) together with the letters U+00E9 and U+00E0, which the
Unicode-aware regex also matches. -/
def demo_word_char : Char → Bool :=
  fun c => c.isAlphanum || c == '_' || c == chrE9 || c == chrE0

/-- A mapping table with the single entry taking chrE9 to a leading
boundary marker followed by the word and. -/
def mapAnd : Char → Option (List Char) :=
  fun x => if x = chrE9 then some (bchar :: ['a', 'n', 'd']) else none

/-- The empty mapping table. -/
def mapNone : Char → Option (List Char) := fun _ => none

/-- The heading of the end-to-end scenario: descriptor D001 named
Name1 with the major-topic flag, one qualifier Q002 named Name2
without it. -/
def headingD001 : MeshHeading :=
  ⟨⟨"D001", "Name1", true⟩, [⟨"Q002", "Name2", false⟩]⟩

/-! ### Claim C1 -/

/-- Claim C1, counterexample: the heading with major descriptor D001
(name Name1) and non-major qualifier Q002 (name Name2) does not render
in default mode as the claimed string D001* (Name1*)/Q002 (Name2). -/
theorem heading_texts_ne_claimed_format :
    MeshHeading.heading_texts headingD001 ≠ ["D001* (Name1*)/Q002 (Name2)"] := by
  decide

/-- Claim C1, amended: the heading renders as D001*/Q002 (Name1*/Name2):
the identifiers are joined with a slash and the names are joined with a
slash inside a single parenthesis, with the major-topic marker appended
to the descriptor identifier and name and no marker on the qualifier
identifier and name. -/
theorem heading_texts_direct_format :
    MeshHeading.heading_texts headingD001 = ["D001*/Q002 (Name1*/Name2)"] := by
  decide

/-! ### Claim C2 -/

/-- Inserting a key already present changes nothing. -/
theorem keyInsert_of_mem {α : Type} [DecidableEq α] {l : List α} {k : α}
    (h : k ∈ l) : keyInsert l k = l := by
  simp [keyInsert, h]

/-- insertAll splits over list append. -/
theorem insertAll_append {α : Type} [DecidableEq α] (acc l₁ l₂ : List α) :
    insertAll acc (l₁ ++ l₂) = insertAll (insertAll acc l₁) l₂ := by
  simp [insertAll, List.foldl_append]

/-- Every element of the first-occurrence subsequence comes from the
original list. -/
theorem mem_of_mem_firstOccur {α : Type} [DecidableEq α] (l : List α) :
    ∀ x, x ∈ firstOccur l → x ∈ l := by
  induction l using firstOccur.induct with
  | case1 => intro x h; simp [firstOccur] at h
  | case2 y ys ih =>
    intro x h
    rw [firstOccur] at h
    rcases List.mem_cons.mp h with rfl | h2
    · exact List.mem_cons_self _ _
    · exact List.mem_cons_of_mem _ (List.mem_of_mem_filter (ih x h2))

/-- The first-occurrence subsequence has no duplicates. -/
theorem firstOccur_nodup {α : Type} [DecidableEq α] (l : List α) :
    (firstOccur l).Nodup := by
  induction l using firstOccur.induct with
  | case1 => simp [firstOccur]
  | case2 y ys ih =>
    rw [firstOccur]
    refine List.nodup_cons.mpr ⟨?_, ih⟩
    intro hmem
    have h2 := List.mem_filter.mp (mem_of_mem_firstOccur _ _ hmem)
    simp at h2

/-- Folding keyInsert over a key list from an accumulator yields the
accumulator followed by the first occurrences of the fresh keys. -/
theorem insertAll_eq_firstOccur {α : Type} [DecidableEq α] :
    ∀ (l acc : List α),
      insertAll acc l = acc ++ firstOccur (l.filter (fun y => decide (y ∉ acc))) := by
  intro l
  induction l with
  | nil => intro acc; simp [insertAll, firstOccur]
  | cons x xs ih =>
    intro acc
    rw [show insertAll acc (x :: xs) = insertAll (keyInsert acc x) xs from rfl]
    by_cases hx : x ∈ acc
    · rw [keyInsert_of_mem hx, ih acc, List.filter_cons]
      simp [hx]
    · rw [keyInsert, if_neg hx, ih (acc ++ [x]), List.filter_cons]
      have hpx : decide (x ∉ acc) = true := by simp [hx]
      rw [if_pos hpx, firstOccur, List.append_assoc, List.singleton_append]
      have hfilters :
          xs.filter (fun y => decide (y ∉ acc ++ [x]))
            = (xs.filter (fun y => decide (y ∉ acc))).filter
                (fun y => decide (y ≠ x)) := by
        rw [List.filter_filter]
        refine List.filter_congr ?_
        intro a _
        simp [List.mem_append, not_or, Bool.and_comm]
      rw [hfilters]

/-- The innermost loop of tree_number_keys as an insertAll. -/
theorem foldl_keyInsert_pair (q : Option Qualifier) (l : List String)
    (acc : List (String × Option Qualifier)) :
    l.foldl (fun a t => keyInsert a (t, q)) acc
      = insertAll acc (l.map (fun t => (t, q))) := by
  induction l generalizing acc with
  | nil => rfl
  | cons t ts ih =>
    rw [List.foldl_cons, List.map_cons,
      show insertAll acc ((t, q) :: ts.map (fun t => (t, q)))
        = insertAll (keyInsert acc (t, q)) (ts.map (fun t => (t, q))) from rfl,
      ih]

/-- A fold of insertAll over per-item key lists is the insertAll of the
flattened key stream. -/
theorem foldl_insertAll_flatMap {α β : Type} [DecidableEq α] (f : β → List α) :
    ∀ (l : List β) (acc : List α),
      l.foldl (fun a x => insertAll a (f x)) acc = insertAll acc (l.flatMap f) := by
  intro l
  induction l with
  | nil => intro acc; rfl
  | cons x xs ih =>
    intro acc
    rw [List.foldl_cons, ih, List.flatMap_cons, insertAll_append]

/-- The nested loops of tree_number_keys insert exactly the flat key
stream into the ordered dictionary. -/
theorem tree_number_keys_eq (u2t : String → List String) (h : MeshHeading) :
    h.tree_number_keys u2t = insertAll [] (key_stream u2t h) := by
  unfold MeshHeading.tree_number_keys key_stream
  simp only [foldl_keyInsert_pair, foldl_insertAll_flatMap]

/-- Claim C2: for every registry and heading, the expanded-tree key
sequence has no duplicate (ancestor, qualifier) pair and equals the
first-occurrence subsequence of the full insertion stream, so a later
pair equal to an already-inserted pair contributes nothing new. -/
theorem tree_number_keys_spec (u2t : String → List String) (h : MeshHeading) :
    (h.tree_number_keys u2t).Nodup ∧
    h.tree_number_keys u2t = firstOccur (key_stream u2t h) := by
  have he : h.tree_number_keys u2t = firstOccur (key_stream u2t h) := by
    rw [tree_number_keys_eq, insertAll_eq_firstOccur]
    simp
  exact ⟨he ▸ firstOccur_nodup _, he⟩

/-! ### Claim C3 -/

/-- The dot-split of a character list is never empty. -/
theorem split_dot_ne_nil (l : List Char) : split_dot l ≠ [] := by
  cases l with
  | nil => simp [split_dot]
  | cons c cs =>
    simp only [split_dot]
    rcases h : split_dot cs with _ | ⟨p, ps⟩
    · simp
    · by_cases hc : c = '.' <;> simp [hc]

/-- Claim C3: the ancestor expansion of H02.403.640 is exactly the
root letter and the three dot-joined prefixes; the expansion of the
single-segment code D12 is exactly the root letter and the code; and
every nonempty code has at least two ancestors. -/
theorem mesh_ancestors_spec :
    mesh_ancestors "H02.403.640" = ["H", "H02", "H02.403", "H02.403.640"]
    ∧ mesh_ancestors "D12" = ["D", "D12"]
    ∧ ∀ s : String, s ≠ "" → 2 ≤ (mesh_ancestors s).length := by
  refine ⟨by decide, by decide, ?_⟩
  intro s _
  have h := split_dot_ne_nil s.data
  simp only [mesh_ancestors, List.singleton_append, List.length_cons,
    List.length_map, List.length_range]
  have : 0 < (split_dot s.data).length := List.length_pos.mpr h
  omega

/-- Witness for claim C3 at the concrete code D12. -/
theorem mesh_ancestors_spec_witness :
    ("D12" : String) ≠ "" ∧ 2 ≤ (mesh_ancestors "D12").length :=
  ⟨by decide, mesh_ancestors_spec.2.2 "D12" (by decide)⟩

/-! ### Claims C4 and C9 -/

/-- Resolution of a leading boundary marker: it becomes a space when
the previous original character is a word character and vanishes
otherwise, leaving the remaining replacement untouched (provided the
replacement does not also end in a marker). -/
theorem map_character_leading (word_char : Char → Bool)
    (prev next_ : Option Char) (rest : List Char)
    (h : rest.getLast? ≠ some bchar) :
    map_character word_char prev next_ (bchar :: rest)
      = (if word_opt word_char prev then [' '] else []) ++ rest := by
  unfold map_character
  rw [if_neg (by simp : ¬(bchar :: rest = []))]
  rw [if_pos (List.head?_cons : (bchar :: rest).head? = some bchar)]
  rw [show List.drop 1 (bchar :: rest) = rest from rfl]
  have h4 : ¬((if word_opt word_char prev then [' '] else []) ++ rest ≠ [] ∧
      ((if word_opt word_char prev then [' '] else []) ++ rest).getLast?
        = some bchar) := by
    rintro ⟨-, hlast⟩
    rw [List.getLast?_append] at hlast
    cases hr : rest.getLast? with
    | some a =>
      rw [hr] at hlast
      simp only [Option.or] at hlast
      exact h (hr.trans hlast)
    | none =>
      rw [hr] at hlast
      by_cases hw : word_opt word_char prev <;> simp [hw, Option.or] at hlast
      exact absurd hlast (by decide)
  rw [if_neg h4]

/-- Resolution of a trailing boundary marker: it becomes a space when
the following original character is a word character and vanishes
otherwise, leaving the preceding replacement untouched (provided the
replacement does not also begin with a marker). -/
theorem map_character_trailing (word_char : Char → Bool)
    (prev next_ : Option Char) (rest : List Char)
    (hne : rest ≠ []) (hh : rest.head? ≠ some bchar) :
    map_character word_char prev next_ (rest ++ [bchar])
      = rest ++ (if word_opt word_char next_ then [' '] else []) := by
  unfold map_character
  rw [if_neg (by simp : ¬(rest ++ [bchar] = []))]
  have h2 : ¬((rest ++ [bchar]).head? = some bchar) := by
    cases rest with
    | nil => exact absurd rfl hne
    | cons a t =>
      simpa using hh
  rw [if_neg h2]
  rw [if_pos ⟨by simp, List.getLast?_concat rest⟩]
  rw [List.dropLast_concat]

/-- A replacement carrying both a leading and a trailing boundary
marker resolves the two independently: the leading marker against the
previous character, the trailing marker against the next character. -/
theorem map_character_both (word_char : Char → Bool)
    (prev next_ : Option Char) (body : List Char) :
    map_character word_char prev next_ (bchar :: (body ++ [bchar]))
      = ((if word_opt word_char prev then [' '] else []) ++ body)
        ++ (if word_opt word_char next_ then [' '] else []) := by
  unfold map_character
  rw [if_neg (by simp : ¬(bchar :: (body ++ [bchar]) = []))]
  rw [if_pos (List.head?_cons : (bchar :: (body ++ [bchar])).head? = some bchar)]
  rw [show List.drop 1 (bchar :: (body ++ [bchar])) = body ++ [bchar] from rfl]
  have hassoc : (if word_opt word_char prev then [' '] else []) ++ (body ++ [bchar])
      = ((if word_opt word_char prev then [' '] else []) ++ body) ++ [bchar] := by
    rw [List.append_assoc]
  rw [if_pos ⟨by simp, by rw [hassoc]; exact List.getLast?_concat _⟩]
  rw [hassoc, List.dropLast_concat]

/-- The pairwise iterator pairs each character with its successor. -/
theorem pairwise_cons_head (c : Char) (t : List Char) :
    pairwise (c :: t) = (c, t.head?) :: pairwise t := by
  cases t <;> rfl

/-- A line of 7-bit characters passes through process_line unchanged,
with no unmapped character and no state change. -/
theorem process_line_ascii (word_char : Char → Bool)
    (M : Char → Option (List Char)) :
    ∀ (l : List Char) (prev : Option Char) (st : TransducerState),
      (∀ ch ∈ l, ch.toNat < 128) →
      process_line word_char M prev (pairwise l) st = (l, 0, st) := by
  intro l
  induction l with
  | nil => intro prev st _; rfl
  | cons c t ih =>
    intro prev st h
    rw [pairwise_cons_head]
    have hc : ¬(128 ≤ c.toNat) := by
      have := h c (List.mem_cons_self _ _)
      omega
    simp only [process_line, if_neg hc]
    rw [ih (some c) st (fun ch hm => h ch (List.mem_cons_of_mem _ hm))]
    rfl

/-- Claim C4: for every word-character classifier, a leading boundary
marker in a replacement becomes a single space exactly when the
character preceding the original unmapped character exists and is a
word character, a trailing marker behaves likewise with the following
character, both markers on one entry resolve independently, and in
particular a table entry taking a character to a marker followed by
the word and transduces the line a-char-b to a andb and the line
space-char-b to space andb, while an unmapped non-ASCII word
character before the mapped character also forces the space (the
decision reads the original character, not its expanded escape). -/
theorem boundary_marker_rules :
    (∀ (word_char : Char → Bool) (prev next_ : Option Char) (rest : List Char),
       rest.getLast? ≠ some bchar →
       map_character word_char prev next_ (bchar :: rest)
         = (if word_opt word_char prev then [' '] else []) ++ rest)
    ∧ (∀ (word_char : Char → Bool) (prev next_ : Option Char) (rest : List Char),
       rest ≠ [] → rest.head? ≠ some bchar →
       map_character word_char prev next_ (rest ++ [bchar])
         = rest ++ (if word_opt word_char next_ then [' '] else []))
    ∧ (∀ (word_char : Char → Bool) (prev next_ : Option Char) (body : List Char),
       map_character word_char prev next_ (bchar :: (body ++ [bchar]))
         = ((if word_opt word_char prev then [' '] else []) ++ body)
           ++ (if word_opt word_char next_ then [' '] else []))
    ∧ (∀ (word_char : Char → Bool) (M : Char → Option (List Char)) (c : Char),
       word_char 'a' = true → word_char ' ' = false →
       128 ≤ c.toNat → M c = some (bchar :: ['a', 'n', 'd']) →
       (process word_char M [['a', c, 'b']] initState).1 = "a andb".data
       ∧ (process word_char M [[' ', c, 'b']] initState).1 = " andb".data)
    ∧ (∀ (word_char : Char → Bool) (M : Char → Option (List Char)) (c d : Char),
       128 ≤ c.toNat → 128 ≤ d.toNat →
       M c = some (bchar :: ['a', 'n', 'd']) → M d = none →
       word_char d = true →
       (process word_char M [[d, c, 'b']] initState).1
         = escape d ++ " andb".data) := by
  refine ⟨map_character_leading, map_character_trailing, map_character_both,
    ?_, ?_⟩
  · intro word_char M c hwa hws h1 h2
    constructor
    · have hmc : map_character word_char (some 'a') (some 'b')
          (bchar :: ['a', 'n', 'd']) = [' ', 'a', 'n', 'd'] := by
        rw [map_character_leading _ _ _ _ (by decide)]
        simp only [word_opt, hwa]
        rfl
      simp only [process, process_line, pairwise, h2, if_pos h1, hmc]
      norm_num
      rfl
    · have hmc : map_character word_char (some ' ') (some 'b')
          (bchar :: ['a', 'n', 'd']) = ['a', 'n', 'd'] := by
        rw [map_character_leading _ _ _ _ (by decide)]
        simp only [word_opt, hws]
        rfl
      simp only [process, process_line, pairwise, h2, if_pos h1, hmc]
      norm_num
      rfl
  · intro word_char M c d h1 hd h2 hMd hwd
    have hmc : map_character word_char (some d) (some 'b')
        (bchar :: ['a', 'n', 'd']) = [' ', 'a', 'n', 'd'] := by
      rw [map_character_leading _ _ _ _ (by decide)]
      simp only [word_opt, hwd]
      rfl
    simp only [process, process_line, pairwise, h2, hMd, if_pos h1, if_pos hd,
      hmc]
    norm_num
    rfl

/-- Witness for claim C4: the boundary rules applied to the concrete
replacement marker-and under a concrete classifier covering U+00E9 and
U+00E0, and the concrete transductions through the single-entry table
mapAnd, including the line with the unmapped word character U+00E0
before the mapped character. -/
theorem boundary_marker_rules_witness :
    (("and".data).getLast? ≠ some bchar
     ∧ map_character demo_word_char (some 'a') (some 'b') (bchar :: "and".data)
         = (if word_opt demo_word_char (some 'a') then [' '] else [])
           ++ "and".data)
    ∧ ("and".data ≠ [] ∧ ("and".data).head? ≠ some bchar
     ∧ map_character demo_word_char (some 'a') (some 'b') ("and".data ++ [bchar])
         = "and".data
           ++ (if word_opt demo_word_char (some 'b') then [' '] else []))
    ∧ map_character demo_word_char (some 'a') (some 'b')
        (bchar :: ("and".data ++ [bchar]))
        = ((if word_opt demo_word_char (some 'a') then [' '] else [])
            ++ "and".data)
          ++ (if word_opt demo_word_char (some 'b') then [' '] else [])
    ∧ (demo_word_char 'a' = true ∧ demo_word_char ' ' = false
     ∧ 128 ≤ chrE9.toNat ∧ mapAnd chrE9 = some (bchar :: ['a', 'n', 'd'])
     ∧ (process demo_word_char mapAnd [['a', chrE9, 'b']] initState).1
         = "a andb".data
     ∧ (process demo_word_char mapAnd [[' ', chrE9, 'b']] initState).1
         = " andb".data)
    ∧ (128 ≤ chrE9.toNat ∧ 128 ≤ chrE0.toNat
     ∧ mapAnd chrE9 = some (bchar :: ['a', 'n', 'd']) ∧ mapAnd chrE0 = none
     ∧ demo_word_char chrE0 = true
     ∧ (process demo_word_char mapAnd [[chrE0, chrE9, 'b']] initState).1
         = escape chrE0 ++ " andb".data) :=
  ⟨⟨by decide,
    boundary_marker_rules.1 demo_word_char (some 'a') (some 'b') "and".data
      (by decide)⟩,
   ⟨by decide, by decide,
    boundary_marker_rules.2.1 demo_word_char (some 'a') (some 'b') "and".data
      (by decide) (by decide)⟩,
   boundary_marker_rules.2.2.1 demo_word_char (some 'a') (some 'b') "and".data,
   ⟨by decide, by decide, by decide, by decide,
    (boundary_marker_rules.2.2.2.1 demo_word_char mapAnd chrE9 (by decide)
      (by decide) (by decide) (by decide)).1,
    (boundary_marker_rules.2.2.2.1 demo_word_char mapAnd chrE9 (by decide)
      (by decide) (by decide) (by decide)).2⟩,
   ⟨by decide, by decide, by decide, by decide, by decide,
    boundary_marker_rules.2.2.2.2 demo_word_char mapAnd chrE9 chrE0 (by decide)
      (by decide) (by decide) (by decide) (by decide)⟩⟩

/-- Claim C9: transduction is the identity on 7-bit input, for every
word-character classifier, mapping table and starting state: the
output equals the input, the reported count of unmapped characters is
zero, and the tallies are unchanged. -/
theorem process_seven_bit_identity (word_char : Char → Bool)
    (M : Char → Option (List Char)) :
    ∀ (lines : List (List Char)) (st : TransducerState),
      (∀ l ∈ lines, ∀ ch ∈ l, ch.toNat < 128) →
      process word_char M lines st = (lines.flatten, 0, st) := by
  intro lines
  induction lines with
  | nil => intro st _; rfl
  | cons l ls ih =>
    intro st h
    simp only [process]
    rw [process_line_ascii word_char M l none st (h l (List.mem_cons_self _ _)),
      ih st (fun l2 hm => h l2 (List.mem_cons_of_mem _ hm))]
    simp

/-- Witness for claim C9: the two-character 7-bit line hi passes
through unchanged under the empty mapping. -/
theorem process_seven_bit_identity_witness :
    (∀ l ∈ [['h', 'i']], ∀ ch ∈ l, ch.toNat < 128) ∧
    process demo_word_char mapNone [['h', 'i']] initState
      = ([['h', 'i']].flatten, 0, initState) :=
  ⟨by decide,
   process_seven_bit_identity demo_word_char mapNone [['h', 'i']] initState
     (by decide)⟩

/-! ### Claim C8 -/

/-- Membership in an ordered insertion. -/
theorem mem_ord_insert (le : Char → Char → Bool) (x : Char) :
    ∀ (l : List Char) (y : Char), y ∈ ord_insert le x l ↔ y = x ∨ y ∈ l := by
  intro l
  induction l with
  | nil => intro y; simp [ord_insert]
  | cons z zs ih =>
    intro y
    simp only [ord_insert]
    by_cases h : le x z
    · simp [h]
    · simp only [if_neg h, List.mem_cons, ih]
      tauto

/-- Ordered insertion permutes the element onto the list. -/
theorem ord_insert_perm (le : Char → Char → Bool) (x : Char) :
    ∀ l : List Char, (ord_insert le x l).Perm (x :: l) := by
  intro l
  induction l with
  | nil => exact List.Perm.refl _
  | cons z zs ih =>
    simp only [ord_insert]
    by_cases h : le x z
    · simp [h]
    · rw [if_neg h]
      exact (ih.cons z).trans (List.Perm.swap x z zs)

/-- Insertion sort permutes its input. -/
theorem ins_sort_perm (le : Char → Char → Bool) (l : List Char) :
    (ins_sort le l).Perm l := by
  induction l with
  | nil => exact List.Perm.refl _
  | cons x xs ih => exact (ord_insert_perm le x (ins_sort le xs)).trans (ih.cons x)

/-- Ordered insertion preserves sortedness for a total transitive
Boolean relation. -/
theorem pairwise_ord_insert (le : Char → Char → Bool)
    (htot : ∀ a b, le a b = true ∨ le b a = true)
    (htrans : ∀ a b c, le a b = true → le b c = true → le a c = true)
    (x : Char) :
    ∀ l : List Char, List.Pairwise (fun a b => le a b = true) l →
      List.Pairwise (fun a b => le a b = true) (ord_insert le x l) := by
  intro l
  induction l with
  | nil => intro _; simp [ord_insert]
  | cons z zs ih =>
    intro hp
    rcases List.pairwise_cons.mp hp with ⟨hz, hzs⟩
    simp only [ord_insert]
    by_cases h : le x z
    · rw [if_pos h]
      refine List.pairwise_cons.mpr ⟨?_, hp⟩
      intro b hb
      rcases List.mem_cons.mp hb with rfl | hbz
      · exact h
      · exact htrans x z b h (hz b hbz)
    · rw [if_neg h]
      have hzx : le z x = true := by
        rcases htot x z with hx | hx
        · exact absurd hx h
        · exact hx
      refine List.pairwise_cons.mpr ⟨?_, ih hzs⟩
      intro b hb
      rcases (mem_ord_insert le x zs b).mp hb with rfl | hbz
      · exact hzx
      · exact hz b hbz

/-- Insertion sort sorts, for a total transitive Boolean relation. -/
theorem pairwise_ins_sort (le : Char → Char → Bool)
    (htot : ∀ a b, le a b = true ∨ le b a = true)
    (htrans : ∀ a b c, le a b = true → le b c = true → le a c = true)
    (l : List Char) :
    List.Pairwise (fun a b => le a b = true) (ins_sort le l) := by
  induction l with
  | nil => simp [ins_sort]
  | cons x xs ih => exact pairwise_ord_insert le htot htrans x _ ih

/-- Lookup at the head key. -/
theorem lookup_cons_self (k : Char) (v : Nat) (rest : List (Char × Nat)) :
    List.lookup k ((k, v) :: rest) = some v := by
  simp [List.lookup]

/-- Lookup past a different head key. -/
theorem lookup_cons_ne (x k : Char) (v : Nat) (rest : List (Char × Nat))
    (h : ¬x = k) : List.lookup x ((k, v) :: rest) = List.lookup x rest := by
  simp [List.lookup, beq_eq_false_iff_ne.mpr h]

/-- Lookup through the per-key increment map of tally_add. -/
theorem lookup_map_update (m : List (Char × Nat)) (c x : Char) :
    (m.map (fun p => if p.1 = c then (p.1, p.2 + 1) else p)).lookup x
      = if x = c then (m.lookup x).map (· + 1) else m.lookup x := by
  induction m with
  | nil => by_cases h : x = c <;> simp [h]
  | cons p ps ih =>
    obtain ⟨k, v⟩ := p
    simp only [List.map_cons]
    by_cases hkc : k = c
    · rw [show (if (k, v).1 = c then ((k, v).1, (k, v).2 + 1) else (k, v))
          = (k, v + 1) from by simp [hkc]]
      by_cases hxk : x = k
      · subst hxk
        rw [if_pos hkc, lookup_cons_self, lookup_cons_self]
        rfl
      · rw [lookup_cons_ne _ _ _ _ hxk, ih]
        by_cases hxc : x = c
        · rw [if_pos hxc, if_pos hxc, lookup_cons_ne _ _ _ _ hxk]
        · rw [if_neg hxc, if_neg hxc, lookup_cons_ne _ _ _ _ hxk]
    · rw [show (if (k, v).1 = c then ((k, v).1, (k, v).2 + 1) else (k, v))
          = (k, v) from by simp [hkc]]
      by_cases hxk : x = k
      · subst hxk
        rw [if_neg hkc, lookup_cons_self, lookup_cons_self]
      · rw [lookup_cons_ne _ _ _ _ hxk, ih]
        by_cases hxc : x = c
        · rw [if_pos hxc, if_pos hxc, lookup_cons_ne _ _ _ _ hxk]
        · rw [if_neg hxc, if_neg hxc, lookup_cons_ne _ _ _ _ hxk]

/-- Lookup distributes over append, first list winning. -/
theorem lookup_append (l₁ l₂ : List (Char × Nat)) (x : Char) :
    (l₁ ++ l₂).lookup x = (l₁.lookup x).or (l₂.lookup x) := by
  induction l₁ with
  | nil => simp [List.lookup, Option.or]
  | cons p ps ih =>
    obtain ⟨k, v⟩ := p
    by_cases hxk : x = k
    · subst hxk
      rw [List.cons_append, lookup_cons_self, lookup_cons_self]
      rfl
    · rw [List.cons_append, lookup_cons_ne _ _ _ _ hxk,
        lookup_cons_ne _ _ _ _ hxk, ih]

/-- A tally with no entry for a key looks it up as none. -/
theorem lookup_eq_none_of_not_any (m : List (Char × Nat)) (c : Char)
    (h : m.any (fun p => p.1 = c) = false) : m.lookup c = none := by
  induction m with
  | nil => rfl
  | cons p ps ih =>
    obtain ⟨k, v⟩ := p
    simp only [List.any_cons, Bool.or_eq_false_iff] at h
    have hkc : ¬(c = k) := by
      intro he
      have := h.1
      simp [he.symm] at this
    rw [lookup_cons_ne _ _ _ _ hkc, ih h.2]

/-- A tally with an entry for a key looks it up as some value. -/
theorem lookup_isSome_of_any (m : List (Char × Nat)) (c : Char)
    (h : m.any (fun p => p.1 = c) = true) : ∃ v, m.lookup c = some v := by
  induction m with
  | nil => simp at h
  | cons p ps ih =>
    obtain ⟨k, v⟩ := p
    by_cases hck : c = k
    · subst hck
      exact ⟨v, lookup_cons_self _ _ _⟩
    · simp only [List.any_cons, Bool.or_eq_true] at h
      rcases h with h | h
      · exact absurd (of_decide_eq_true h).symm hck
      · obtain ⟨w, hw⟩ := ih h
        exact ⟨w, by rw [lookup_cons_ne _ _ _ _ hck, hw]⟩

/-- The dict update of tally_add adds one to the count of the updated
key and leaves every other count unchanged. -/
theorem tally_count_tally_add (m : List (Char × Nat)) (c x : Char) :
    tally_count (tally_add m c) x
      = tally_count m x + (if x = c then 1 else 0) := by
  unfold tally_add
  by_cases hany : m.any (fun p => p.1 = c) = true
  · rw [if_pos hany]
    unfold tally_count
    rw [lookup_map_update]
    by_cases hxc : x = c
    · subst hxc
      obtain ⟨v, hv⟩ := lookup_isSome_of_any m x hany
      simp [hv]
    · simp [hxc]
  · rw [if_neg hany]
    have hnone := lookup_eq_none_of_not_any m c (Bool.not_eq_true _ ▸ hany)
    unfold tally_count
    rw [lookup_append]
    by_cases hxc : x = c
    · subst hxc
      simp [hnone, List.lookup]
    · rw [lookup_cons_ne _ _ _ _ hxc]
      cases List.lookup x m <;> simp [Option.or, hxc]

/-- The dict update of tally_add keeps the key sequence when the key
is present and appends it otherwise. -/
theorem tally_add_keys (m : List (Char × Nat)) (c : Char) :
    (tally_add m c).map Prod.fst
      = if m.any (fun p => p.1 = c) then m.map Prod.fst
        else m.map Prod.fst ++ [c] := by
  unfold tally_add
  by_cases hany : m.any (fun p => p.1 = c) = true
  · rw [if_pos hany, if_pos hany, List.map_map]
    refine List.map_congr_left ?_
    intro p _
    by_cases hp : p.1 = c <;> simp [hp]
  · rw [if_neg hany, if_neg hany]
    simp

/-- The dict update of tally_add preserves distinctness of the keys. -/
theorem tally_add_keys_nodup (m : List (Char × Nat)) (c : Char)
    (h : (m.map Prod.fst).Nodup) : ((tally_add m c).map Prod.fst).Nodup := by
  rw [tally_add_keys]
  by_cases hany : m.any (fun p => p.1 = c) = true
  · rw [if_pos hany]; exact h
  · rw [if_neg hany]
    have hmem : c ∉ m.map Prod.fst := by
      intro hc
      rcases List.mem_map.mp hc with ⟨p, hp, he⟩
      have : m.any (fun p => p.1 = c) = true :=
        List.any_eq_true.mpr ⟨p, hp, by simp [he]⟩
      exact hany this
    simp [List.nodup_append, h, hmem]

/-- Through one line, the count recorded for a character in the
missing-character tally grows by its number of unmapped occurrences in
the line and by nothing else. -/
theorem process_line_missing_count (word_char : Char → Bool)
    (M : Char → Option (List Char)) :
    ∀ (l : List Char) (prev : Option Char) (st : TransducerState) (ch : Char),
      tally_count
          ((process_line word_char M prev (pairwise l) st).2.2).missing_mapping
          ch
        = tally_count st.missing_mapping ch
          + (if 128 ≤ ch.toNat ∧ M ch = none then l.count ch else 0) := by
  intro l
  induction l with
  | nil => intro prev st ch; simp [pairwise, process_line]
  | cons c t ih =>
    intro prev st ch
    rw [pairwise_cons_head]
    simp only [process_line]
    by_cases hc : 128 ≤ c.toNat
    · cases hMc : M c with
      | some mm =>
        simp only [if_pos hc, hMc]
        rw [ih]
        by_cases hcond : 128 ≤ ch.toNat ∧ M ch = none
        · have hne : ch ≠ c := by
            intro he2
            rw [he2, hMc] at hcond
            exact Option.some_ne_none mm hcond.2
          simp [hcond, List.count_cons, hne, Ne.symm hne]
        · simp [hcond]
      | none =>
        simp only [if_pos hc, hMc]
        rw [ih, tally_count_tally_add]
        by_cases hcond : 128 ≤ ch.toNat ∧ M ch = none
        · by_cases he : ch = c
          · subst he
            simp [hcond, List.count_cons]
            omega
          · simp [he, hcond, List.count_cons]
        · have he : ¬(ch = c) := fun h => hcond (h ▸ ⟨hc, hMc⟩)
          simp [he, hcond]
    · simp only [if_neg hc]
      rw [ih]
      by_cases hcond : 128 ≤ ch.toNat ∧ M ch = none
      · have he : ch ≠ c := fun he2 => hc (he2 ▸ hcond.1)
        simp [hcond, List.count_cons, he, Ne.symm he]
      · simp [hcond]

/-- Through one line, distinctness of the missing-character tally keys
is preserved. -/
theorem process_line_missing_keys (word_char : Char → Bool)
    (M : Char → Option (List Char)) :
    ∀ (l : List Char) (prev : Option Char) (st : TransducerState),
      (st.missing_mapping.map Prod.fst).Nodup →
      (((process_line word_char M prev (pairwise l) st).2.2).missing_mapping.map
        Prod.fst).Nodup := by
  intro l
  induction l with
  | nil => intro prev st h; simpa [pairwise, process_line] using h
  | cons c t ih =>
    intro prev st h
    rw [pairwise_cons_head]
    simp only [process_line]
    by_cases hc : 128 ≤ c.toNat
    · cases hMc : M c with
      | some mm =>
        simp only [if_pos hc, hMc]
        exact ih _ _ h
      | none =>
        simp only [if_pos hc, hMc]
        exact ih _ _ (tally_add_keys_nodup _ _ h)
    · simp only [if_neg hc]
      exact ih _ _ h

/-- Across the whole input, the count recorded for a character in the
missing-character tally grows by its number of unmapped occurrences. -/
theorem process_missing_count (word_char : Char → Bool)
    (M : Char → Option (List Char)) :
    ∀ (lines : List (List Char)) (st : TransducerState) (ch : Char),
      tally_count ((process word_char M lines st).2.2).missing_mapping ch
        = tally_count st.missing_mapping ch
          + (if 128 ≤ ch.toNat ∧ M ch = none then (lines.flatten).count ch
             else 0) := by
  intro lines
  induction lines with
  | nil => intro st ch; simp [process]
  | cons l ls ih =>
    intro st ch
    simp only [process]
    rw [ih, process_line_missing_count, List.flatten_cons, List.count_append]
    by_cases hcond : 128 ≤ ch.toNat ∧ M ch = none
    · simp [hcond]
      omega
    · simp [hcond]

/-- Across the whole input, distinctness of the missing-character
tally keys is preserved. -/
theorem process_missing_keys (word_char : Char → Bool)
    (M : Char → Option (List Char)) :
    ∀ (lines : List (List Char)) (st : TransducerState),
      (st.missing_mapping.map Prod.fst).Nodup →
      (((process word_char M lines st).2.2).missing_mapping.map Prod.fst).Nodup := by
  intro lines
  induction lines with
  | nil => intro st h; simpa [process] using h
  | cons l ls ih =>
    intro st h
    simp only [process]
    exact ih _ (process_line_missing_keys word_char M l none st h)

/-- Claim C8, counterexample: transducing a line holding one U+00E0
and two U+00E9 under the empty mapping, the print_summary listing
order of unicode2ascii.py puts U+00E0 (count 1) before U+00E9
(count 2): the summary is sorted ascending by frequency, not
descending as claimed. -/
theorem print_summary_order_counterexample :
    missing_summary_order
        ((process demo_word_char mapNone
          [[Char.ofNat 224, Char.ofNat 233, Char.ofNat 233]]
          initState).2.2).missing_mapping
      = [Char.ofNat 224, Char.ofNat 233]
    ∧ tally_count
        ((process demo_word_char mapNone
          [[Char.ofNat 224, Char.ofNat 233, Char.ofNat 233]]
          initState).2.2).missing_mapping (Char.ofNat 224)
      < tally_count
        ((process demo_word_char mapNone
          [[Char.ofNat 224, Char.ofNat 233, Char.ofNat 233]]
          initState).2.2).missing_mapping (Char.ofNat 233) := by
  decide

/-- Claim C8, amended: the summary listings show the distinct unmapped
characters with their accumulated counts — the keys of the tally are
distinct and every key carries exactly the number of unmapped
occurrences of that character in the run — and the listing of
print_summary in unicode2ascii.py is sorted in ascending order of
frequency while the listing of write_to_ascii_statistics in
extractTIABs.py is sorted in descending order of frequency. -/
theorem unmapped_summary_spec :
    (∀ m : List (Char × Nat),
      (missing_summary_order m).Perm (m.map Prod.fst)
      ∧ List.Pairwise (fun a b => tally_count m a ≤ tally_count m b)
          (missing_summary_order m))
    ∧ (∀ m : List (Char × Nat),
      (write_to_ascii_order m).Perm (m.map Prod.fst)
      ∧ List.Pairwise (fun a b => tally_count m b ≤ tally_count m a)
          (write_to_ascii_order m))
    ∧ (∀ (word_char : Char → Bool) (M : Char → Option (List Char))
        (lines : List (List Char)),
      (((process word_char M lines initState).2.2).missing_mapping.map
        Prod.fst).Nodup
      ∧ ∀ ch, tally_count
            ((process word_char M lines initState).2.2).missing_mapping ch
          = if 128 ≤ ch.toNat ∧ M ch = none then (lines.flatten).count ch
            else 0) := by
  refine ⟨fun m => ⟨ins_sort_perm _ _, ?_⟩, fun m => ⟨ins_sort_perm _ _, ?_⟩,
    fun word_char M lines => ⟨?_, fun ch => ?_⟩⟩
  · have := pairwise_ins_sort (fun a b => tally_count m a ≤ tally_count m b)
      (fun a b => by
        rcases Nat.le_total (tally_count m a) (tally_count m b) with h | h <;>
          simp [h])
      (fun a b c hab hbc =>
        decide_eq_true (Nat.le_trans (of_decide_eq_true hab) (of_decide_eq_true hbc)))
      (m.map Prod.fst)
    exact this.imp (fun h => of_decide_eq_true h)
  · have := pairwise_ins_sort (fun a b => tally_count m b ≤ tally_count m a)
      (fun a b => by
        rcases Nat.le_total (tally_count m b) (tally_count m a) with h | h <;>
          simp [h])
      (fun a b c hab hbc =>
        decide_eq_true (Nat.le_trans (of_decide_eq_true hbc) (of_decide_eq_true hab)))
      (m.map Prod.fst)
    exact this.imp (fun h => of_decide_eq_true h)
  · exact process_missing_keys word_char M lines initState (by simp [initState])
  · rw [process_missing_count]
    simp [initState, tally_count]

/-! ### Claims C5, C6 and C7 -/

/-- Success of the from_xml tail pins the identifier, title, section
sequence and warning list of the result. -/
theorem from_xml_tail_ok (element : Element) (PMID title : String)
    (tw sw : List String) (sections : List AbstractSection)
    (r : Citation × List String)
    (hok : from_xml_tail element PMID title tw sw sections = .ok r) :
    r.1.PMID = PMID ∧ r.1.title = title ∧ r.1.sections = sections
      ∧ r.2 = tw ++ sw := by
  unfold from_xml_tail at hok
  split at hok
  · exact absurd hok (by simp)
  · split at hok
    · exact absurd hok (by simp)
    · split at hok
      · exact absurd hok (by simp)
      · split at hok
        · exact absurd hok (by simp)
        · split at hok
          · exact absurd hok (by simp)
          · injection hok with h
            subst h
            exact ⟨rfl, rfl, rfl, rfl⟩

/-- Success of from_xml_rest pins identifier and title and keeps every
title warning in the warning list. -/
theorem from_xml_rest_ok_chars (element : Element) (PMID title : String)
    (w : List String) (r : Citation × List String)
    (hok : from_xml_rest element PMID title w = .ok r) :
    r.1.PMID = PMID ∧ r.1.title = title ∧ ∀ x ∈ w, x ∈ r.2 := by
  unfold from_xml_rest at hok
  split at hok
  · exact absurd hok (by simp)
  · split at hok
    · exact absurd hok (by simp)
    · obtain ⟨h1, h2, _, h4⟩ := from_xml_tail_ok _ _ _ _ _ _ _ hok
      exact ⟨h1, h2, fun x hx => h4 ▸ List.mem_append_left _ hx⟩

/-- With no abstract container, a successful from_xml_rest returns an
empty section sequence. -/
theorem from_xml_rest_none_sections (element : Element) (PMID title : String)
    (w : List String) (r : Citation × List String)
    (hab : find_abstract element PMID = .ok none)
    (hok : from_xml_rest element PMID title w = .ok r) :
    r.1.sections = [] := by
  unfold from_xml_rest at hok
  rw [hab] at hok
  simp only [abstract_texts_of, sections_of, sec_warns_of, List.filterMap_nil,
    Option.isSome_none, Bool.false_and, Bool.false_eq_true, if_false] at hok
  exact (from_xml_tail_ok _ _ _ _ _ _ _ hok).2.2.1

/-- A present abstract container without AbstractText blocks makes
from_xml_rest fail with the MalformedRecord assertion. -/
theorem from_xml_rest_err_abstract (element : Element) (PMID title : String)
    (w : List String) (a : Element)
    (hab : find_abstract element PMID = .ok (some a))
    (hempty : a.findall "AbstractText" = []) :
    from_xml_rest element PMID title w
      = .error (.malformedRecord ("ERROR: no <AbstractText> for " ++ PMID)) := by
  unfold from_xml_rest
  rw [hab]
  simp [abstract_texts_of, hempty]

/-- A successful abstract resolution implies the Article element was
found. -/
theorem find_abstract_article (citation : Element) (PMID : String)
    (x : Option Element)
    (h : find_abstract citation PMID = .ok x) :
    ∃ article, find_only citation "Article" = .ok article := by
  unfold find_abstract at h
  cases ha : find_only citation "Article" with
  | error e => rw [ha] at h; exact absurd h (by simp)
  | ok article => exact ⟨article, rfl⟩

/-- Citation.from_xml reduced at successfully resolved early stages. -/
theorem from_xml_eq_rest (element p article : Element)
    (tw : String × List String)
    (hp : find_only element "PMID" = .ok p)
    (ha : find_only element "Article" = .ok article)
    (ht : resolve_title article (p.text.getD "") = .ok tw) :
    Citation.from_xml element
      = from_xml_rest element (p.text.getD "") tw.1 tw.2 := by
  unfold Citation.from_xml
  simp only [hp, ha, ht]

/-- A failing title resolution propagates out of Citation.from_xml. -/
theorem from_xml_err_of_title_err (element p article : Element)
    (err : ExtractError)
    (hp : find_only element "PMID" = .ok p)
    (ha : find_only element "Article" = .ok article)
    (ht : resolve_title article (p.text.getD "") = .error err) :
    Citation.from_xml element = .error err := by
  unfold Citation.from_xml
  simp only [hp, ha, ht]

/-- An ArticleTitle lookup failure propagates out of resolve_title. -/
theorem resolve_title_err_primary (article : Element) (P : String)
    (err : ExtractError)
    (h : find_only article "ArticleTitle" = .error err) :
    resolve_title article P = .error err := by
  unfold resolve_title
  simp only [h]

/-- A nonempty primary title is used as is, with no warning. -/
theorem resolve_title_primary (article t : Element) (P : String)
    (h : find_only article "ArticleTitle" = .ok t)
    (hne : inner_text t ≠ "") :
    resolve_title article P = .ok (inner_text t, []) := by
  unfold resolve_title vernacular_fallback
  simp only [h, if_neg hne]

/-- An empty primary title with a vernacular element falls back to the
vernacular inner text, warning when that is empty too. -/
theorem resolve_title_fallback (article t v : Element) (P : String)
    (h : find_only article "ArticleTitle" = .ok t)
    (he : inner_text t = "")
    (hv : find_only article "VernacularTitle" = .ok v) :
    resolve_title article P
      = if inner_text v = "" then .ok ("", ["missing title for " ++ P])
        else .ok (inner_text v, []) := by
  unfold resolve_title vernacular_fallback
  simp only [h, if_pos he, hv]

/-- An empty primary title whose vernacular lookup raises KeyError
resolves to the empty title together with the missing-title warning. -/
theorem resolve_title_fallback_missing (article t : Element) (P m : String)
    (h : find_only article "ArticleTitle" = .ok t)
    (he : inner_text t = "")
    (hv : find_only article "VernacularTitle" = .error (.keyError m)) :
    resolve_title article P = .ok ("", ["missing title for " ++ P]) := by
  unfold resolve_title vernacular_fallback
  simp only [h, if_pos he, hv, he, if_pos]

/-- Claim C6: an AbstractText block whose text is empty after
whitespace normalization and whose label is also empty after
normalization (absent, empty, or the literal UNLABELLED) always fails
section construction with the empty-section rejection; and the literal
label UNLABELLED always normalizes to the empty label on success. -/
theorem abstract_section_empty_rejected :
    (∀ (element : Element) (PMID : String),
      py_strip (inner_text element) = "" →
      (element.get_attr "Label" = none ∨ element.get_attr "Label" = some ""
        ∨ element.get_attr "Label" = some "UNLABELLED") →
      AbstractSection.from_xml element PMID
        = .error ("empty unlabelled <AbstractText> in " ++ PMID))
    ∧ (∀ (element : Element) (PMID : String) (s : AbstractSection),
      element.get_attr "Label" = some "UNLABELLED" →
      AbstractSection.from_xml element PMID = .ok s → s.label = "") := by
  constructor
  · intro element PMID htext hlabel
    have ht : normalize_text (inner_text element) = "" := by
      unfold normalize_text
      rw [if_neg]
      rintro ⟨-, h2⟩
      exact h2 htext
    have hl : (normalize_label (element.get_attr "Label")).getD "" = "" := by
      rcases hlabel with h | h | h <;> simp [normalize_label, h]
    simp [AbstractSection.from_xml, ht, hl]
  · intro element PMID s h hok
    unfold AbstractSection.from_xml at hok
    split at hok
    · exact absurd hok (by simp)
    · injection hok with h2
      subst h2
      simp [AbstractSection.label, normalize_label, h]

/-- Witness for claim C6: the whitespace-only UNLABELLED block is
rejected, and the UNLABELLED label of a nonempty block normalizes to
the empty label. -/
theorem abstract_section_empty_rejected_witness :
    (py_strip (inner_text elemUnlabelledBlank) = ""
     ∧ elemUnlabelledBlank.get_attr "Label" = some "UNLABELLED"
     ∧ AbstractSection.from_xml elemUnlabelledBlank "7"
         = .error ("empty unlabelled <AbstractText> in " ++ "7"))
    ∧ (elemUnlabelledText.get_attr "Label" = some "UNLABELLED"
     ∧ AbstractSection.from_xml elemUnlabelledText "7" = .ok ⟨"body", ""⟩
     ∧ (⟨"body", ""⟩ : AbstractSection).label = "") :=
  ⟨⟨by decide, by decide,
    abstract_section_empty_rejected.1 elemUnlabelledBlank "7" (by decide)
      (Or.inr (Or.inr (by decide)))⟩,
   ⟨by decide, rfl,
    abstract_section_empty_rejected.2 elemUnlabelledText "7" ⟨"body", ""⟩
      (by decide) rfl⟩⟩

/-- Claim C5: extraction of a citation whose resolved abstract
container is present with zero AbstractText blocks never succeeds and,
once identifier, article and title resolve, fails with precisely the
MalformedRecord assertion; extraction of a citation with no abstract
container, whenever it succeeds, yields an empty section sequence. -/
theorem abstract_presence_spec :
    (∀ (element p a : Element),
      find_only element "PMID" = .ok p →
      find_abstract element (p.text.getD "") = .ok (some a) →
      a.findall "AbstractText" = [] →
      (∀ r, Citation.from_xml element ≠ .ok r)
      ∧ (∀ (article : Element) (tw : String × List String),
          find_only element "Article" = .ok article →
          resolve_title article (p.text.getD "") = .ok tw →
          Citation.from_xml element
            = .error (.malformedRecord
                ("ERROR: no <AbstractText> for " ++ (p.text.getD "")))))
    ∧ (∀ (element p : Element) (r : Citation × List String),
      find_only element "PMID" = .ok p →
      find_abstract element (p.text.getD "") = .ok none →
      Citation.from_xml element = .ok r →
      r.1.sections = []) := by
  constructor
  · intro element p a hp hab hempty
    constructor
    · intro r hok
      obtain ⟨article, ha⟩ := find_abstract_article _ _ _ hab
      cases ht : resolve_title article (p.text.getD "") with
      | error e =>
        rw [from_xml_err_of_title_err element p article e hp ha ht] at hok
        exact absurd hok (by simp)
      | ok tw =>
        rw [from_xml_eq_rest element p article tw hp ha ht,
          from_xml_rest_err_abstract _ _ _ _ _ hab hempty] at hok
        exact absurd hok (by simp)
    · intro article tw ha ht
      rw [from_xml_eq_rest element p article tw hp ha ht]
      exact from_xml_rest_err_abstract _ _ _ _ _ hab hempty
  · intro element p r hp hab hok
    obtain ⟨article, ha⟩ := find_abstract_article _ _ _ hab
    cases ht : resolve_title article (p.text.getD "") with
    | error e =>
      rw [from_xml_err_of_title_err element p article e hp ha ht] at hok
      exact absurd hok (by simp)
    | ok tw =>
      rw [from_xml_eq_rest element p article tw hp ha ht] at hok
      exact from_xml_rest_none_sections _ _ _ _ _ hab hok

/-- Witness for claim C5: the citation with an empty Abstract element
fails extraction with the MalformedRecord assertion, and the citation
with no abstract container succeeds with no sections. -/
theorem abstract_presence_spec_witness :
    (find_only elemAbstractNoTexts "PMID" = .ok pmid1
     ∧ find_abstract elemAbstractNoTexts "1" = .ok (some abstractNoTexts)
     ∧ abstractNoTexts.findall "AbstractText" = []
     ∧ Citation.from_xml elemAbstractNoTexts
         ≠ .ok (⟨"1", "T", [], [], [], []⟩, [])
     ∧ find_only elemAbstractNoTexts "Article" = .ok articleA
     ∧ resolve_title articleA "1" = .ok ("T", [])
     ∧ Citation.from_xml elemAbstractNoTexts
         = .error (.malformedRecord ("ERROR: no <AbstractText> for " ++ "1")))
    ∧ (find_only elemNoAbstract "PMID" = .ok pmid2
     ∧ find_abstract elemNoAbstract "2" = .ok none
     ∧ Citation.from_xml elemNoAbstract
         = .ok (⟨"2", "T", [], [], [], [("PubDate", "2000")]⟩, [])
     ∧ (⟨"2", "T", [], [], [], [("PubDate", "2000")]⟩ : Citation).sections
         = []) :=
  ⟨⟨rfl, rfl, rfl,
    (abstract_presence_spec.1 elemAbstractNoTexts pmid1 abstractNoTexts
      rfl rfl rfl).1 _,
    rfl, rfl,
    (abstract_presence_spec.1 elemAbstractNoTexts pmid1 abstractNoTexts
      rfl rfl rfl).2 articleA ("T", []) rfl rfl⟩,
   ⟨rfl, rfl, rfl,
    abstract_presence_spec.2 elemNoAbstract pmid2
      (⟨"2", "T", [], [], [], [("PubDate", "2000")]⟩, []) rfl rfl rfl⟩⟩

/-- Claim C7, counterexample: in a citation whose Article holds no
ArticleTitle element but a VernacularTitle with text V, extraction
does not fall back to the vernacular title: it fails with the
uncaught ArticleTitle KeyError of find_only. -/
theorem title_fallback_counterexample :
    find_only articleNoPrimaryTitle "ArticleTitle"
      = .error (.keyError "Error: expected 1 ArticleTitle, got 0")
    ∧ find_only articleNoPrimaryTitle "VernacularTitle" = .ok vernacularV
    ∧ inner_text vernacularV = "V"
    ∧ Citation.from_xml elemNoPrimaryTitle
        = .error (.keyError "Error: expected 1 ArticleTitle, got 0") :=
  ⟨rfl, rfl, rfl, rfl⟩

/-- Claim C7, amended: the primary title field is used when present
and nonempty; when present but empty the vernacular field is used;
when the vernacular is also empty or its element absent, extraction
proceeds with an empty title and surfaces the recoverable
missing-title warning; but when the primary title element itself is
absent (or duplicated), extraction fails with the propagated lookup
error. -/
theorem title_resolution_spec :
    ∀ (element p article : Element),
      find_only element "PMID" = .ok p →
      find_only element "Article" = .ok article →
      ((∀ err, find_only article "ArticleTitle" = .error err →
          Citation.from_xml element = .error err)
       ∧ (∀ (t : Element) (r : Citation × List String),
          find_only article "ArticleTitle" = .ok t →
          inner_text t ≠ "" →
          Citation.from_xml element = .ok r → r.1.title = inner_text t)
       ∧ (∀ (t v : Element) (r : Citation × List String),
          find_only article "ArticleTitle" = .ok t →
          inner_text t = "" →
          find_only article "VernacularTitle" = .ok v →
          Citation.from_xml element = .ok r →
          r.1.title = inner_text v
            ∧ (inner_text v = "" →
               ("missing title for " ++ (p.text.getD "")) ∈ r.2))
       ∧ (∀ (t : Element) (m : String) (r : Citation × List String),
          find_only article "ArticleTitle" = .ok t →
          inner_text t = "" →
          find_only article "VernacularTitle" = .error (.keyError m) →
          Citation.from_xml element = .ok r →
          r.1.title = ""
            ∧ ("missing title for " ++ (p.text.getD "")) ∈ r.2)) := by
  intro element p article hp ha
  refine ⟨?_, ?_, ?_, ?_⟩
  · intro err hterr
    exact from_xml_err_of_title_err element p article err hp ha
      (resolve_title_err_primary article _ err hterr)
  · intro t r ht hne hok
    rw [from_xml_eq_rest element p article (inner_text t, []) hp ha
      (resolve_title_primary article t _ ht hne)] at hok
    exact (from_xml_rest_ok_chars _ _ _ _ _ hok).2.1
  · intro t v r ht he hv hok
    by_cases hev : inner_text v = ""
    · have hres : resolve_title article (p.text.getD "")
          = .ok ("", ["missing title for " ++ (p.text.getD "")]) := by
        rw [resolve_title_fallback article t v _ ht he hv, if_pos hev]
      rw [from_xml_eq_rest element p article _ hp ha hres] at hok
      obtain ⟨-, h2, h3⟩ := from_xml_rest_ok_chars _ _ _ _ _ hok
      exact ⟨by rw [h2, hev], fun _ => h3 _ (by simp)⟩
    · have hres : resolve_title article (p.text.getD "")
          = .ok (inner_text v, []) := by
        rw [resolve_title_fallback article t v _ ht he hv, if_neg hev]
      rw [from_xml_eq_rest element p article _ hp ha hres] at hok
      exact ⟨(from_xml_rest_ok_chars _ _ _ _ _ hok).2.1,
        fun hc => absurd hc hev⟩
  · intro t m r ht he hv hok
    have hres :=
      resolve_title_fallback_missing article t (p.text.getD "") m ht he hv
    rw [from_xml_eq_rest element p article _ hp ha hres] at hok
    obtain ⟨-, h2, h3⟩ := from_xml_rest_ok_chars _ _ _ _ _ hok
    exact ⟨h2, h3 _ (by simp)⟩

/-- Witness for claim C7 at three concrete citations: an empty primary
title with a nonempty vernacular fallback V, an empty primary title
with an empty vernacular (success with the empty title and the
missing-title warning), and an empty primary title with no vernacular
element at all (success with the empty title and the warning). -/
theorem title_resolution_spec_witness :
    (find_only elemEmptyPrimaryTitle "PMID" = .ok pmid9
     ∧ find_only elemEmptyPrimaryTitle "Article" = .ok articleEmptyPrimaryTitle
     ∧ find_only articleEmptyPrimaryTitle "ArticleTitle" = .ok titleEmpty
     ∧ inner_text titleEmpty = ""
     ∧ find_only articleEmptyPrimaryTitle "VernacularTitle" = .ok vernacularV
     ∧ Citation.from_xml elemEmptyPrimaryTitle
         = .ok (⟨"9", "V", [], [], [], [("PubDate", "2000")]⟩, [])
     ∧ (⟨"9", "V", [], [], [], [("PubDate", "2000")]⟩ : Citation).title
         = inner_text vernacularV)
    ∧ (find_only elemBothTitlesEmpty "PMID" = .ok pmid8
     ∧ find_only elemBothTitlesEmpty "Article" = .ok articleBothTitlesEmpty
     ∧ find_only articleBothTitlesEmpty "ArticleTitle" = .ok titleEmpty
     ∧ inner_text titleEmpty = ""
     ∧ find_only articleBothTitlesEmpty "VernacularTitle" = .ok vernacularEmpty
     ∧ inner_text vernacularEmpty = ""
     ∧ Citation.from_xml elemBothTitlesEmpty
         = .ok (⟨"8", "", [], [], [], [("PubDate", "2000")]⟩,
                ["missing title for 8"])
     ∧ (⟨"8", "", [], [], [], [("PubDate", "2000")]⟩ : Citation).title
         = inner_text vernacularEmpty
     ∧ "missing title for 8" ∈ ["missing title for 8"])
    ∧ (find_only elemNoVernacular "PMID" = .ok pmid5
     ∧ find_only elemNoVernacular "Article" = .ok articleNoVernacular
     ∧ find_only articleNoVernacular "ArticleTitle" = .ok titleEmpty
     ∧ inner_text titleEmpty = ""
     ∧ find_only articleNoVernacular "VernacularTitle"
         = .error (.keyError "Error: expected 1 VernacularTitle, got 0")
     ∧ Citation.from_xml elemNoVernacular
         = .ok (⟨"5", "", [], [], [], [("PubDate", "2000")]⟩,
                ["missing title for 5"])
     ∧ (⟨"5", "", [], [], [], [("PubDate", "2000")]⟩ : Citation).title = ""
     ∧ "missing title for 5" ∈ ["missing title for 5"]) :=
  ⟨⟨rfl, rfl, rfl, rfl, rfl, rfl,
    ((title_resolution_spec elemEmptyPrimaryTitle pmid9 articleEmptyPrimaryTitle
       rfl rfl).2.2.1 titleEmpty vernacularV
       (⟨"9", "V", [], [], [], [("PubDate", "2000")]⟩, []) rfl rfl rfl rfl).1⟩,
   ⟨rfl, rfl, rfl, rfl, rfl, rfl, rfl,
    ((title_resolution_spec elemBothTitlesEmpty pmid8 articleBothTitlesEmpty
       rfl rfl).2.2.1 titleEmpty vernacularEmpty
       (⟨"8", "", [], [], [], [("PubDate", "2000")]⟩,
        ["missing title for 8"]) rfl rfl rfl rfl).1,
    ((title_resolution_spec elemBothTitlesEmpty pmid8 articleBothTitlesEmpty
       rfl rfl).2.2.1 titleEmpty vernacularEmpty
       (⟨"8", "", [], [], [], [("PubDate", "2000")]⟩,
        ["missing title for 8"]) rfl rfl rfl rfl).2 rfl⟩,
   ⟨rfl, rfl, rfl, rfl, rfl, rfl,
    ((title_resolution_spec elemNoVernacular pmid5 articleNoVernacular
       rfl rfl).2.2.2 titleEmpty "Error: expected 1 VernacularTitle, got 0"
       (⟨"5", "", [], [], [], [("PubDate", "2000")]⟩,
        ["missing title for 5"]) rfl rfl rfl rfl).1,
    ((title_resolution_spec elemNoVernacular pmid5 articleNoVernacular
       rfl rfl).2.2.2 titleEmpty "Error: expected 1 VernacularTitle, got 0"
       (⟨"5", "", [], [], [], [("PubDate", "2000")]⟩,
        ["missing title for 5"]) rfl rfl rfl rfl).2⟩⟩

/-! ### Claim C10 -/

/-- Appending a newline makes the last character a newline. -/
theorem ends_with_newline_append (s : String) :
    ends_with_newline (s ++ "\n") = true := by
  unfold ends_with_newline
  rw [String.data_append, show ("\n" : String).data = ['\n'] from rfl,
    List.getLast?_concat]
  rfl

/-- The newline-termination step of Citation.text always yields a
string whose last character is a newline. -/
theorem terminate_newline_ends (s : String) :
    ends_with_newline (if !(ends_with_newline s) then s ++ "\n" else s) = true := by
  cases h : ends_with_newline s with
  | true => simp [h]
  | false => simp [h, ends_with_newline_append]

/-- Claim C10: for every citation, registry and options configuration,
the plain-text rendering of Citation.text ends with a newline
character. -/
theorem citation_text_ends_with_newline (u2t : String → List String)
    (tname : String → String) (c : Citation) (options : Option Options) :
    ends_with_newline (Citation.text u2t tname c options) = true := by
  simp only [Citation.text]
  exact terminate_newline_ends _

end Pubmed
